import Mathlib

/-!
Verification of the concurrent DNS resolution core of gochinadns (`dns.go`):
the per-server racing coordinator `lookupInServers`, the per-request
orchestrator `Server.Serve`, and the answer classifiers `processReply`,
`processUntrustedAnswer` and `processTrustedAnswer`.

The sequential control flow of `Serve` and the classifiers is embedded as
pure functions over an explicit oracle describing which `select` branch
fires and which message it delivers.  The racing coordinator, whose claims
are about interleavings of concurrently running query tasks, is embedded as
a small-step transition relation `RaceStep` on an explicit coordinator
state, with the buffered result channel, the escalation-permit channel, the
stagger ticker, cancellation and the per-task request copies all modelled
as state components.
-/

namespace GoChinaDNS

/-- A DNS resource record, restricted to the shapes `processReply`
dispatches on: `A`/`AAAA` address records (the address abstracted to a
`Nat`), `CNAME`, and everything else. -/
inductive RR where
  | A (ip : Nat)
  | AAAA (ip : Nat)
  | CNAME (target : String)
  | Other
deriving DecidableEq, Repr

/-- One DNS question: only the name takes part in the trust logic. -/
structure Question where
  name : String
  qtype : Nat
deriving DecidableEq, Repr

/-- A DNS message, keeping the fields `dns.go` reads or writes:
identifier, question section, answer section, the recursion-desired bit,
the negotiated UDP payload size, the response bit and the compress flag. -/
structure Msg where
  ident : Nat
  question : List Question
  answer : List RR
  recursionDesired : Bool
  udpSize : Nat
  response : Bool
  compress : Bool
deriving DecidableEq, Repr

/-- Modelled from the spec: the DNS library's `reply.SetReply(req)` on a
freshly allocated message — a syntactically valid, empty reply mirroring
the request (same identifier and first question, response bit set, no
answer records). -/
def emptyReply (req : Msg) : Msg :=
  { ident := req.ident
    question := req.question.take 1
    answer := []
    recursionDesired := req.recursionDesired
    udpSize := 0
    response := true
    compress := false }

/-- Modelled from the spec: a `Resolver` identifies one upstream address;
its definition is not under `src/` and the address is used only for
logging, never for equality-based logic. -/
structure Resolver where
  addr : String
deriving DecidableEq, Repr

/-- Modelled from the spec: the `Server` capability record consumed by
`dns.go` (its Go definition is not under `src/`).  `IPBlacklist.Contains`
and `ChinaCIDR.Contains` return a boolean and an error; the error is
modelled as a second boolean flag, and `dns.go` uses the boolean result
regardless of the error (fail-open). -/
structure Server where
  DomainBlacklist : String → Bool
  DomainPolluted : String → Bool
  IPBlacklist : Nat → Bool × Bool
  ChinaCIDR : Nat → Bool × Bool
  Bidirectional : Bool
  TrustedServers : List Resolver
  UntrustedServers : List Resolver
  TCPOnly : Bool
  UDPMaxSize : Nat

/-- The first question's name, `req.Question[0].Name` in `Serve`. -/
def qNameOf (req : Msg) : String :=
  match req.question with
  | [] => ""
  | q :: _ => q.name

/-- Modelled from the spec: `setUDPSize` applies UDP payload size
negotiation to an outgoing request (its definition is not under `src/`). -/
def setUDPSize (m : Msg) (size : Nat) : Msg :=
  { m with udpSize := size }

/-- `Server.normalizeRequest`: force recursion-desired and, unless in
TCP-only mode, set the UDP payload size. -/
def normalizeRequest (s : Server) (req : Msg) : Msg :=
  let r := { req with recursionDesired := true }
  if !s.TCPOnly then setUDPSize r s.UDPMaxSize else r

/-- The extraction loop of `processReply`: scan the answer records in
order; the first `A`/`AAAA` record yields the representative address; a
`CNAME` that is not the last record is skipped; a trailing `CNAME`, any
other record kind, or an empty sequence yields no address (the reply is
then returned as-is, unclassified). -/
def firstAddress : List RR → Option Nat
  | [] => none
  | RR.A ip :: _ => some ip
  | RR.AAAA ip :: _ => some ip
  | RR.CNAME _ :: rest => if rest.isEmpty then none else firstAddress rest
  | RR.Other :: _ => none

/-- The verdict of `processUntrustedAnswer` before its select: suspect iff
the address hits the IP blacklist, else accepted iff it lies in the
domestic CIDR set. -/
def untrustedSuspect (s : Server) (ip : Nat) : Bool :=
  let hit := (s.IPBlacklist ip).1
  if hit then true
  else
    let contain := (s.ChinaCIDR ip).1
    if contain then false else true

/-- The verdict of `processTrustedAnswer` before its select: suspect iff
the address hits the IP blacklist, else accepted outright when
bidirectional mode is off, else accepted iff the address lies outside the
domestic CIDR set. -/
def trustedSuspect (s : Server) (ip : Nat) : Bool :=
  let hit := (s.IPBlacklist ip).1
  if hit then true
  else if !s.Bidirectional then false
  else
    let contain := (s.ChinaCIDR ip).1
    if !contain then false else true

/-- The two trust classes; `dns.go` passes `processUntrustedAnswer` or
`processTrustedAnswer` as the `process` argument of `processReply`, which
this embedding encodes by a `Trust` tag. -/
inductive Trust where
  | trusted
  | untrusted
deriving DecidableEq, Repr

/-- The opposite trust class: a cross-check classifies the other group's
reply. -/
def Trust.flip : Trust → Trust
  | .trusted => .untrusted
  | .untrusted => .trusted

/-- Dispatch to the classification rule of the given trust class. -/
def suspectVerdict (s : Server) (t : Trust) (ip : Nat) : Bool :=
  match t with
  | .trusted => trustedSuspect s ip
  | .untrusted => untrustedSuspect s ip

/-- Result of a classifier call: the reply it returns, how many
cross-check replies it consumed from the other group's channel, and
whether it executed its suspect-path select at all (waiting on the other
channel or on context cancellation). -/
structure ClassifyOut where
  reply : Msg
  crossChecks : Nat
  waited : Bool
deriving DecidableEq, Repr

/-- Oracle for a classifier's suspect-path select, standing for the pair
(other-group channel, cancellation context): `none` models the `nil`
channel passed by the nested call (only the context branch can fire);
`some none` models the context-done branch firing first; `some (some m)`
models the other group's reply `m` arriving first. -/
abbrev OtherChan := Option (Option Msg)

mutual

/-- `Server.processReply`: extract the representative address from the
reply's answer records and hand it to the trust-specific classifier; a
reply without a representative address is returned as-is. -/
def processReply (s : Server) (t : Trust) (rep : Msg) (other : OtherChan) :
    ClassifyOut :=
  match firstAddress rep.answer with
  | some ip => processAnswer s t rep ip other
  | none => ⟨rep, 0, false⟩
termination_by (sizeOf other, 1)

/-- `Server.processUntrustedAnswer` / `Server.processTrustedAnswer` after
address extraction: on an acceptable address return the reply at once; on
a suspect verdict select over the other group's channel and the context —
a received reply is classified once more by the opposite rule with `nil`
as its other channel (the `s.processReply(ctx, logger, rep, nil, …)` call
in the source), while cancellation falls back to the suspect reply. -/
def processAnswer (s : Server) (t : Trust) (rep : Msg) (ip : Nat)
    (other : OtherChan) : ClassifyOut :=
  if suspectVerdict s t ip then
    match other with
    | some (some rep2) =>
        let r := processReply s t.flip rep2 none
        ⟨r.reply, r.crossChecks + 1, true⟩
    | some none => ⟨rep, 0, true⟩
    | none => ⟨rep, 0, true⟩
  else ⟨rep, 0, false⟩
termination_by (sizeOf other, 0)

end

/-- Oracle for the orchestrator's top-level select in `Serve`: which of
the three branches fires, the reply it delivers, and — for a reply branch
— the oracle of the classifier's own suspect-path select over the other
group's channel. -/
inductive FirstEvent where
  | fromUntrusted (rep : Msg) (sel : Option Msg)
  | fromTrusted (rep : Msg) (sel : Option Msg)
  | ctxDone
deriving DecidableEq, Repr

/-- Which select oracles are realizable for a given configuration: a reply
can arrive on a result channel only if the corresponding coordinator was
started (the untrusted one is skipped for polluted names) with a nonempty
resolver list — `lookupInServers` on an empty list never sends
(`race_empty_effects` below). -/
def eventValid (s : Server) (qName : String) (e : FirstEvent) : Prop :=
  match e with
  | .fromUntrusted _ sel =>
      (s.UntrustedServers ≠ [] ∧ s.DomainPolluted qName = false)
      ∧ (sel.isSome → s.TrustedServers ≠ [])
  | .fromTrusted _ sel =>
      s.TrustedServers ≠ []
      ∧ (sel.isSome →
          s.UntrustedServers ≠ [] ∧ s.DomainPolluted qName = false)
  | .ctxDone => True

/-- Observable effects of one `Serve` call: the messages handed to
`w.WriteMsg` (an `Option` so that a nil message would be visible), and
which setup actions ran on the taken path. -/
structure ServeLog where
  writes : List (Option Msg)
  contextsCreated : Bool
  channelsCreated : Bool
  startedTrusted : Bool
  startedUntrusted : Bool
  untrustedCanceledImmediately : Bool
deriving DecidableEq, Repr

/-- `Server.Serve`: on a blacklisted question name, write an empty reply
and return; otherwise build the cancellation tree and both result
channels, normalize the request, start the trusted coordinator
unconditionally and the untrusted one unless the name is polluted (then
cancel the untrusted child at once), select over the two channels and
root cancellation, classify the first reply, and write exactly one final
message — the classifier's reply marked compressible, or a synthesized
empty reply when cancellation won. -/
def Serve (s : Server) (req : Msg) (e : FirstEvent) : ServeLog :=
  let qName := qNameOf req
  if s.DomainBlacklist qName then
    { writes := [some (emptyReply req)]
      contextsCreated := false
      channelsCreated := false
      startedTrusted := false
      startedUntrusted := false
      untrustedCanceledImmediately := false }
  else
    let req1 := normalizeRequest s req
    let startedU := !(s.DomainPolluted qName)
    let reply : Option Msg :=
      match e with
      | .fromUntrusted rep sel =>
          some (processReply s .untrusted rep (some sel)).reply
      | .fromTrusted rep sel =>
          some (processReply s .trusted rep (some sel)).reply
      | .ctxDone => none
    let finalReply : Option Msg :=
      match reply with
      | some r => some { r with compress := true }
      | none => some (emptyReply req1)
    { writes := [finalReply]
      contextsCreated := true
      channelsCreated := true
      startedTrusted := true
      startedUntrusted := startedU
      untrustedCanceledImmediately := !startedU }

/-- State of one racing coordinator `lookupInServers` together with its
single-slot result channel and its consumer side.  `n` is the resolver
list length; `next` is the loop position, so also the number of admitted
query tasks (admission follows list order); `permits` is the buffered
content of the `queryNext` channel (capacity `n`, seeded with one);
`ticks` counts stagger-ticker firings consumed for admission; `buf` is
the result channel's buffer (holding the index of the sender); `sends`
and `recvs` count successful channel operations; `canceled` is the
coordinator's context; `returned` records that `wg.Wait` and the deferred
`cancel` have run.  Request copies live in a reference store: `store`
maps references to abstract message values (reference `0` is the shared
request), `args` records, per admitted task, the reference passed to the
lookup capability, and `nextRef` is the allocation counter. -/
structure RaceState where
  n : Nat
  next : Nat
  permits : Nat
  inflight : List Nat
  failed : List Nat
  succeeded : List Nat
  ticks : Nat
  buf : Option Nat
  sends : Nat
  recvs : Nat
  canceled : Bool
  loopDone : Bool
  returned : Bool
  args : List (Nat × Nat)
  nextRef : Nat
  store : List (Nat × Nat)
deriving DecidableEq, Repr

/-- Value currently held by a reference (first binding wins). -/
def valueAt (st : RaceState) (r : Nat) : Nat :=
  (st.store.lookup r).getD 0

/-- Initial coordinator state for a resolver list of length `n` and a
request whose abstract value is `reqVal`, held at reference `0`. -/
def raceInit (n reqVal : Nat) : RaceState :=
  { n := n
    next := 0
    permits := 1
    inflight := []
    failed := []
    succeeded := []
    ticks := 0
    buf := none
    sends := 0
    recvs := 0
    canceled := false
    loopDone := false
    returned := false
    args := []
    nextRef := 1
    store := [(0, reqVal)] }

/-- One interleaving step of `lookupInServers` and its environment.
Admission (one loop iteration) consumes an escalation permit or a stagger
tick, starts a query task on the next resolver in list order, and hands
it a freshly allocated copy of the request (`req.Copy()`).  A task
failure returns its permit to `queryNext` (which blocks while the buffer
is full, hence the capacity guard).  A task success performs the
non-blocking send — placing its reply only when the single-slot buffer is
free — and cancels the coordinator's context; in-flight tasks keep
running after cancellation.  The consumer may receive the buffered value.
A lookup may mutate the message it was handed (`mutate`).  The loop exits
on cancellation or list exhaustion, and the coordinator returns after all
tasks are joined, running the deferred `cancel`. -/
inductive RaceStep : RaceState → RaceState → Prop where
  | admitPermit (st : RaceState) :
      st.loopDone = false → st.next < st.n → 0 < st.permits →
      RaceStep st { st with
        next := st.next + 1
        permits := st.permits - 1
        inflight := st.next :: st.inflight
        args := (st.next, st.nextRef) :: st.args
        store := (st.nextRef, valueAt st 0) :: st.store
        nextRef := st.nextRef + 1 }
  | admitTick (st : RaceState) :
      st.loopDone = false → st.next < st.n →
      RaceStep st { st with
        next := st.next + 1
        ticks := st.ticks + 1
        inflight := st.next :: st.inflight
        args := (st.next, st.nextRef) :: st.args
        store := (st.nextRef, valueAt st 0) :: st.store
        nextRef := st.nextRef + 1 }
  | breakLoop (st : RaceState) :
      st.loopDone = false → st.canceled = true →
      RaceStep st { st with loopDone := true }
  | exhaust (st : RaceState) :
      st.loopDone = false → st.next = st.n →
      RaceStep st { st with loopDone := true }
  | fail (st : RaceState) (i : Nat) :
      i ∈ st.inflight → st.permits < st.n →
      RaceStep st { st with
        inflight := st.inflight.erase i
        failed := i :: st.failed
        permits := st.permits + 1 }
  | succeedPlace (st : RaceState) (i : Nat) :
      i ∈ st.inflight → st.buf = none →
      RaceStep st { st with
        inflight := st.inflight.erase i
        succeeded := st.succeeded ++ [i]
        buf := some i
        sends := st.sends + 1
        canceled := true }
  | succeedDrop (st : RaceState) (i j : Nat) :
      i ∈ st.inflight → st.buf = some j →
      RaceStep st { st with
        inflight := st.inflight.erase i
        succeeded := st.succeeded ++ [i]
        canceled := true }
  | recv (st : RaceState) (j : Nat) :
      st.buf = some j →
      RaceStep st { st with buf := none, recvs := st.recvs + 1 }
  | mutate (st : RaceState) (i r v : Nat) :
      (i, r) ∈ st.args →
      RaceStep st { st with store := (r, v) :: st.store }
  | ret (st : RaceState) :
      st.loopDone = true → st.inflight = [] → st.returned = false →
      RaceStep st { st with returned := true, canceled := true }

/-- States reachable from `init` by interleaving steps. -/
inductive RaceReach (init : RaceState) : RaceState → Prop where
  | refl : RaceReach init init
  | tail {s t : RaceState} :
      RaceReach init s → RaceStep s t → RaceReach init t

/-- A sample one-question request used to instantiate the theorems. -/
def sampleReq : Msg :=
  { ident := 7
    question := [⟨"example.com.", 1⟩]
    answer := []
    recursionDesired := false
    udpSize := 0
    response := false
    compress := false }

/-- A server whose domain blacklist matches every name. -/
def blockServer : Server :=
  { DomainBlacklist := fun _ => true
    DomainPolluted := fun _ => false
    IPBlacklist := fun _ => (false, false)
    ChinaCIDR := fun _ => (false, false)
    Bidirectional := true
    TrustedServers := [⟨"t.example:53"⟩]
    UntrustedServers := [⟨"u.example:53"⟩]
    TCPOnly := false
    UDPMaxSize := 4096 }

/-- A server whose blacklists match nothing. -/
def openServer : Server :=
  { blockServer with DomainBlacklist := fun _ => false }

/-- A server for which every name is in the polluted-domain set. -/
def pollutedServer : Server :=
  { openServer with DomainPolluted := fun _ => true }

/-- A server with both resolver lists empty. -/
def emptyGroupsServer : Server :=
  { openServer with TrustedServers := [], UntrustedServers := [] }

/-- A server whose domestic CIDR set holds exactly the address `36`. -/
def chinaServer : Server :=
  { openServer with ChinaCIDR := fun ip => (ip == 36, false) }

/-- An untrusted-branch reply whose representative address is `36`. -/
def replyA36 : Msg :=
  { ident := 7
    question := [⟨"example.com.", 1⟩]
    answer := [RR.A 36]
    recursionDesired := true
    udpSize := 0
    response := true
    compress := false }

/-- End state of a two-resolver run in which resolver `0` succeeds and
places its reply, the consumer receives it, and resolver `1` (admitted by
a stagger tick while `0` was in flight) then also succeeds and places a
second value in the emptied single-slot buffer. -/
def c2Final : RaceState :=
  { n := 2
    next := 2
    permits := 0
    inflight := []
    failed := []
    succeeded := [0, 1]
    ticks := 1
    buf := some 1
    sends := 2
    recvs := 1
    canceled := true
    loopDone := false
    returned := false
    args := [(1, 2), (0, 1)]
    nextRef := 3
    store := [(2, 0), (1, 0), (0, 0)] }

/-- End state of the empty-resolver-list run: the loop exhausts at once
and the coordinator returns, its deferred `cancel` firing. -/
def c8Final : RaceState :=
  { n := 0
    next := 0
    permits := 1
    inflight := []
    failed := []
    succeeded := []
    ticks := 0
    buf := none
    sends := 0
    recvs := 0
    canceled := true
    loopDone := true
    returned := true
    args := []
    nextRef := 1
    store := [(0, 5)] }

/-- State of a three-resolver run at the moment the first-admitted
resolver succeeds first, after two stagger ticks admitted resolvers `1`
and `2` during its flight: three queries admitted, none failed. -/
def c9Final : RaceState :=
  { n := 3
    next := 3
    permits := 0
    inflight := [2, 1]
    failed := []
    succeeded := [0]
    ticks := 2
    buf := some 0
    sends := 1
    recvs := 0
    canceled := true
    loopDone := false
    returned := false
    args := [(2, 3), (1, 2), (0, 1)]
    nextRef := 4
    store := [(3, 0), (2, 0), (1, 0), (0, 0)] }

/-- State of a one-resolver run after the admitted task's lookup mutated
the copy (reference `1`) it was handed: the request at reference `0`
keeps its value `7`. -/
def c10State : RaceState :=
  { n := 1
    next := 1
    permits := 0
    inflight := [0]
    failed := []
    succeeded := []
    ticks := 0
    buf := none
    sends := 0
    recvs := 0
    canceled := false
    loopDone := false
    returned := false
    args := [(0, 1)]
    nextRef := 2
    store := [(1, 9), (1, 7), (0, 7)] }

/-- Any property holding initially and preserved by every step holds in
every reachable state. -/
theorem race_invariant {P : RaceState → Prop} {init st : RaceState}
    (h : RaceReach init st) (h0 : P init)
    (hstep : ∀ s t, P s → RaceStep s t → P t) : P st := by
  induction h with
  | refl => exact h0
  | tail _ hs ih => exact hstep _ _ ih hs

/-- Channel accounting: every successful non-blocking send is either still
buffered in the single slot or has been received, so the number of
successful sends never exceeds the number of receives plus one. -/
theorem race_sends_eq_recvs_plus_buffered {n v : Nat} {st : RaceState}
    (h : RaceReach (raceInit n v) st) :
    st.sends = st.recvs + (if st.buf.isSome then 1 else 0) := by
  refine race_invariant
    (P := fun u => u.sends = u.recvs + (if u.buf.isSome then 1 else 0)) h ?_ ?_
  · simp [raceInit]
  intro s t hP hs
  cases hs <;> simp_all

/-- Escalation discipline: every admission consumes the seed permit, a
permit granted by a failure, or a stagger tick, so admissions plus unspent
permits never exceed one plus failures plus ticks. -/
theorem race_permit_discipline {n v : Nat} {st : RaceState}
    (h : RaceReach (raceInit n v) st) :
    st.next + st.permits ≤ 1 + st.failed.length + st.ticks := by
  refine race_invariant
    (P := fun u => u.next + u.permits ≤ 1 + u.failed.length + u.ticks) h ?_ ?_
  · simp [raceInit]
  intro s t hP hs
  cases hs <;> simp_all <;> omega

/-- Task accounting: admitted queries are exactly the in-flight, failed
and succeeded ones. -/
theorem race_task_counts {n v : Nat} {st : RaceState}
    (h : RaceReach (raceInit n v) st) :
    st.inflight.length + st.failed.length + st.succeeded.length = st.next := by
  refine race_invariant
    (P := fun u => u.inflight.length + u.failed.length + u.succeeded.length = u.next)
    h ?_ ?_
  · simp [raceInit]
  intro s t hP hs
  cases hs
  case fail i hmem hcap =>
    have hpos := List.length_pos_of_mem hmem
    simp only [List.length_erase_of_mem hmem, List.length_cons]
    omega
  case succeedPlace i hmem hbuf =>
    have hpos := List.length_pos_of_mem hmem
    simp only [List.length_erase_of_mem hmem, List.length_append, List.length_cons,
      List.length_nil]
    omega
  case succeedDrop i j hmem hbuf =>
    have hpos := List.length_pos_of_mem hmem
    simp only [List.length_erase_of_mem hmem, List.length_append, List.length_cons,
      List.length_nil]
    omega
  all_goals simp_all
  all_goals omega

/-- Store discipline: the shared request keeps its value at reference `0`,
every admitted task's lookup argument is a strictly positive reference
below the allocation counter, and the argument references are pairwise
distinct. -/
theorem race_store_frame {n v : Nat} {st : RaceState}
    (h : RaceReach (raceInit n v) st) :
    st.store.lookup 0 = some v
    ∧ (∀ p ∈ st.args, 0 < p.2 ∧ p.2 < st.nextRef)
    ∧ st.args.Pairwise (fun a b => a.2 ≠ b.2)
    ∧ 1 ≤ st.nextRef := by
  refine race_invariant
    (P := fun u => List.lookup 0 u.store = some v
      ∧ (∀ p ∈ u.args, 0 < p.2 ∧ p.2 < u.nextRef)
      ∧ u.args.Pairwise (fun a b => a.2 ≠ b.2)
      ∧ 1 ≤ u.nextRef) h ?_ ?_
  · simp [raceInit]
  intro s t hP hs
  obtain ⟨hst, hargs, hpair, href⟩ := hP
  cases hs
  case admitPermit h1 h2 h3 =>
    refine ⟨?_, ?_, ?_, ?_⟩
    · have hne : 0 ≠ s.nextRef := by omega
      simpa [List.lookup_cons, beq_false_of_ne hne] using hst
    · intro p hp
      rcases List.mem_cons.mp hp with hEq | hMem
      · subst hEq
        refine ⟨?_, ?_⟩
        · show 0 < s.nextRef
          omega
        · show s.nextRef < s.nextRef + 1
          omega
      · exact ⟨(hargs p hMem).1, Nat.lt_succ_of_lt (hargs p hMem).2⟩
    · refine List.pairwise_cons.mpr ⟨?_, hpair⟩
      intro b hb
      have hb2 := (hargs b hb).2
      show s.nextRef ≠ b.2
      omega
    · show 1 ≤ s.nextRef + 1
      omega
  case admitTick h1 h2 =>
    refine ⟨?_, ?_, ?_, ?_⟩
    · have hne : 0 ≠ s.nextRef := by omega
      simpa [List.lookup_cons, beq_false_of_ne hne] using hst
    · intro p hp
      rcases List.mem_cons.mp hp with hEq | hMem
      · subst hEq
        refine ⟨?_, ?_⟩
        · show 0 < s.nextRef
          omega
        · show s.nextRef < s.nextRef + 1
          omega
      · exact ⟨(hargs p hMem).1, Nat.lt_succ_of_lt (hargs p hMem).2⟩
    · refine List.pairwise_cons.mpr ⟨?_, hpair⟩
      intro b hb
      have hb2 := (hargs b hb).2
      show s.nextRef ≠ b.2
      omega
    · show 1 ≤ s.nextRef + 1
      omega
  case mutate i r w hmem =>
    refine ⟨?_, hargs, hpair, href⟩
    have hrpos : 0 < r := (hargs _ hmem).1
    have hne : 0 ≠ r := by omega
    simpa [List.lookup_cons, beq_false_of_ne hne] using hst
  all_goals exact ⟨hst, hargs, hpair, href⟩

/-- On an empty resolver list the coordinator admits nothing, touches
neither the store nor the result channel, and cancels its context exactly
when it returns. -/
theorem race_empty_invariant {v : Nat} {st : RaceState}
    (h : RaceReach (raceInit 0 v) st) :
    st.n = 0 ∧ st.next = 0 ∧ st.permits = 1 ∧ st.inflight = [] ∧ st.failed = []
    ∧ st.succeeded = [] ∧ st.ticks = 0 ∧ st.buf = none ∧ st.sends = 0
    ∧ st.recvs = 0 ∧ st.args = [] ∧ st.nextRef = 1 ∧ st.store = [(0, v)]
    ∧ (st.canceled = true → st.returned = true)
    ∧ (st.returned = true → st.canceled = true) := by
  refine race_invariant
    (P := fun u => u.n = 0 ∧ u.next = 0 ∧ u.permits = 1 ∧ u.inflight = []
      ∧ u.failed = [] ∧ u.succeeded = [] ∧ u.ticks = 0 ∧ u.buf = none
      ∧ u.sends = 0 ∧ u.recvs = 0 ∧ u.args = [] ∧ u.nextRef = 1
      ∧ u.store = [(0, v)]
      ∧ (u.canceled = true → u.returned = true)
      ∧ (u.returned = true → u.canceled = true)) h ?_ ?_
  · simp [raceInit]
  intro s t hP hs
  cases hs <;> simp_all

/-- A classifier call handed a nil other channel returns its input reply
unchanged and performs no cross-check. -/
theorem processReply_nil_chan (s : Server) (t : Trust) (rep : Msg) :
    (processReply s t rep none).reply = rep
    ∧ (processReply s t rep none).crossChecks = 0 := by
  rw [processReply]
  cases h : firstAddress rep.answer with
  | none => exact ⟨rfl, rfl⟩
  | some ip =>
      dsimp only
      rw [processAnswer.eq_def]
      split <;> simp

/-- Claim C1: for every incoming request, `Serve` hands the transport
exactly one message and that message is never nil: the blacklist path
writes the empty reply and returns, and on every other path, when no
branch produced a reply before cancellation, a syntactically valid empty
reply mirroring the (normalized) request is synthesized and written. -/
theorem c1_write_exactly_once (s : Server) (req : Msg) (e : FirstEvent) :
    (∃ m : Msg, (Serve s req e).writes = [some m])
    ∧ (s.DomainBlacklist (qNameOf req) = true →
        (Serve s req e).writes = [some (emptyReply req)])
    ∧ (s.DomainBlacklist (qNameOf req) = false → e = FirstEvent.ctxDone →
        (Serve s req e).writes = [some (emptyReply (normalizeRequest s req))]) := by
  cases hbl : s.DomainBlacklist (qNameOf req)
  · refine ⟨?_, by simp [hbl], ?_⟩
    · cases e with
      | fromUntrusted rep sel =>
          exact ⟨{ (processReply s .untrusted rep (some sel)).reply with
            compress := true }, by simp [Serve, hbl]⟩
      | fromTrusted rep sel =>
          exact ⟨{ (processReply s .trusted rep (some sel)).reply with
            compress := true }, by simp [Serve, hbl]⟩
      | ctxDone =>
          exact ⟨emptyReply (normalizeRequest s req), by simp [Serve, hbl]⟩
    · intro _ he
      subst he
      simp [Serve, hbl]
  · refine ⟨⟨emptyReply req, by simp [Serve, hbl]⟩, fun _ => by simp [Serve, hbl], ?_⟩
    intro hc
    simp [hbl] at hc

/-- Witness for C1 at a concrete blacklisted request. -/
theorem c1_write_exactly_once_witness :
    (Serve blockServer sampleReq FirstEvent.ctxDone).writes
      = [some (emptyReply sampleReq)] :=
  (c1_write_exactly_once blockServer sampleReq FirstEvent.ctxDone).2.1 rfl

/-- Claim C3: cross-checking is capped at depth 2.  A classifier started
with a live other channel consumes at most one cross-check reply — the
nested call receives a nil channel, so a second suspect verdict accepts
instead of bouncing — and the final reply is always the first reply or
the reply received from the other channel. -/
theorem c3_crosscheck_depth_two (s : Server) (t : Trust) (rep : Msg)
    (sel : Option Msg) :
    (processReply s t rep (some sel)).crossChecks ≤ 1
    ∧ ((processReply s t rep (some sel)).reply = rep
        ∨ ∃ rep2, sel = some rep2 ∧ (processReply s t rep (some sel)).reply = rep2) := by
  rw [processReply]
  cases h : firstAddress rep.answer with
  | none => simp
  | some ip =>
      dsimp only
      rw [processAnswer.eq_def]
      split
      · cases sel with
        | none => simp
        | some rep2 =>
            have hnested := processReply_nil_chan s t.flip rep2
            constructor
            · show (processReply s t.flip rep2 none).crossChecks + 1 ≤ 1
              omega
            · right
              exact ⟨rep2, rfl, hnested.1⟩
      · simp

/-- Claim C4: a blacklisted question name makes `Serve` write a reply
with no answer records and return before any context, channel or
coordinator is created, so no upstream resolver is contacted. -/
theorem c4_blacklist_short_circuit (s : Server) (req : Msg) (e : FirstEvent)
    (h : s.DomainBlacklist (qNameOf req) = true) :
    (Serve s req e).writes = [some (emptyReply req)]
    ∧ (emptyReply req).answer = []
    ∧ (Serve s req e).contextsCreated = false
    ∧ (Serve s req e).channelsCreated = false
    ∧ (Serve s req e).startedTrusted = false
    ∧ (Serve s req e).startedUntrusted = false := by
  simp [Serve, h, emptyReply]

/-- Witness for C4 at a concrete blacklisted request. -/
theorem c4_blacklist_short_circuit_witness :
    (Serve blockServer sampleReq FirstEvent.ctxDone).writes
        = [some (emptyReply sampleReq)]
    ∧ (emptyReply sampleReq).answer = []
    ∧ (Serve blockServer sampleReq FirstEvent.ctxDone).contextsCreated = false
    ∧ (Serve blockServer sampleReq FirstEvent.ctxDone).channelsCreated = false
    ∧ (Serve blockServer sampleReq FirstEvent.ctxDone).startedTrusted = false
    ∧ (Serve blockServer sampleReq FirstEvent.ctxDone).startedUntrusted = false :=
  c4_blacklist_short_circuit blockServer sampleReq FirstEvent.ctxDone rfl

/-- Claim C5: on every non-blacklisted request the trusted coordinator is
started unconditionally, and when the question name is polluted the
untrusted coordinator is never started and the untrusted child context is
canceled immediately. -/
theorem c5_polluted_skips_untrusted (s : Server) (req : Msg) (e : FirstEvent)
    (hb : s.DomainBlacklist (qNameOf req) = false) :
    (Serve s req e).startedTrusted = true
    ∧ (s.DomainPolluted (qNameOf req) = true →
        (Serve s req e).startedUntrusted = false
        ∧ (Serve s req e).untrustedCanceledImmediately = true) := by
  refine ⟨by simp [Serve, hb], ?_⟩
  intro hp
  simp [Serve, hb, hp]

/-- Witness for C5 at a concrete polluted, non-blacklisted request. -/
theorem c5_polluted_skips_untrusted_witness :
    (Serve pollutedServer sampleReq FirstEvent.ctxDone).startedTrusted = true
    ∧ (Serve pollutedServer sampleReq FirstEvent.ctxDone).startedUntrusted = false
    ∧ (Serve pollutedServer sampleReq
        FirstEvent.ctxDone).untrustedCanceledImmediately = true := by
  have h := c5_polluted_skips_untrusted pollutedServer sampleReq
    FirstEvent.ctxDone rfl
  exact ⟨h.1, (h.2 rfl).1, (h.2 rfl).2⟩

/-- Claim C6: an untrusted-branch reply whose representative address is
outside the IP blacklist and inside the domestic CIDR set is returned
immediately by `processUntrustedAnswer`: no read of the trusted channel,
no wait on the context, whatever the state of the trusted branch. -/
theorem c6_domestic_untrusted_accepted (s : Server) (rep : Msg) (ip : Nat)
    (other : OtherChan)
    (h1 : (s.IPBlacklist ip).1 = false) (h2 : (s.ChinaCIDR ip).1 = true) :
    processAnswer s Trust.untrusted rep ip other = ⟨rep, 0, false⟩ := by
  rw [processAnswer.eq_def]
  simp [suspectVerdict, untrustedSuspect, h1, h2]

/-- Witness for C6 at a concrete domestic, non-blacklisted address with
an available trusted reply that is ignored. -/
theorem c6_domestic_untrusted_accepted_witness :
    processAnswer chinaServer Trust.untrusted replyA36 36 (some (some sampleReq))
      = ⟨replyA36, 0, false⟩ :=
  c6_domestic_untrusted_accepted chinaServer replyA36 36 (some (some sampleReq))
    rfl rfl

/-- Claim C7: with both resolver lists empty, every non-blacklisted
request terminates with the synthesized empty reply: a coordinator on an
empty list returns at once, never sends, and cancels its child context on
return, so the only realizable select outcome is root cancellation and
`Serve` writes the empty fallback reply. -/
theorem c7_empty_groups_no_deadlock (s : Server) (req : Msg) (e : FirstEvent)
    (ht : s.TrustedServers = []) (hu : s.UntrustedServers = [])
    (hb : s.DomainBlacklist (qNameOf req) = false)
    (hv : eventValid s (qNameOf req) e) :
    e = FirstEvent.ctxDone
    ∧ (Serve s req e).writes = [some (emptyReply (normalizeRequest s req))]
    ∧ (emptyReply (normalizeRequest s req)).answer = []
    ∧ (∀ v st, RaceReach (raceInit 0 v) st →
        st.sends = 0 ∧ (st.returned = true → st.canceled = true)) := by
  have he : e = FirstEvent.ctxDone := by
    cases e with
    | fromUntrusted rep sel => exact absurd hu hv.1.1
    | fromTrusted rep sel => exact absurd ht hv.1
    | ctxDone => rfl
  subst he
  refine ⟨rfl, by simp [Serve, hb], by simp [emptyReply], ?_⟩
  intro v st hst
  obtain ⟨-, -, -, -, -, -, -, -, h9, -, -, -, -, -, h15⟩ :=
    race_empty_invariant hst
  exact ⟨h9, h15⟩

/-- Witness for C7 at a concrete server with both resolver lists empty. -/
theorem c7_empty_groups_no_deadlock_witness :
    (Serve emptyGroupsServer sampleReq FirstEvent.ctxDone).writes
      = [some (emptyReply (normalizeRequest emptyGroupsServer sampleReq))] :=
  (c7_empty_groups_no_deadlock emptyGroupsServer sampleReq FirstEvent.ctxDone
    rfl rfl rfl trivial).2.1

/-- Claim C2 counterexample: a run of `lookupInServers` on two resolvers
in which both succeed and the consumer reads the channel between the two
sends; the second non-blocking send finds the single slot empty and is
successfully placed, so two values are placed over the lifetime of the
request. -/
theorem c2_two_successful_sends_counterexample :
    RaceReach (raceInit 2 0) c2Final ∧ c2Final.sends = 2 ∧ c2Final.recvs = 1 :=
  ⟨RaceReach.tail
    (RaceReach.tail
      (RaceReach.tail
        (RaceReach.tail
          (RaceReach.tail RaceReach.refl
            (RaceStep.admitPermit (raceInit 2 0) rfl (by decide) (by decide)))
          (RaceStep.admitTick _ rfl (by decide)))
        (RaceStep.succeedPlace _ 0 (by decide) rfl))
      (RaceStep.recv _ 0 rfl))
    (RaceStep.succeedPlace _ 1 (by decide) rfl),
   rfl, rfl⟩

/-- Claim C2 (amended): every successful send is either still buffered in
the single slot or has been received, so at most one more send ever
succeeds than values consumed; in particular, while the consumer has not
read the channel, at most one value is ever placed. -/
theorem c2_at_most_one_unread_send (n v : Nat) (st : RaceState)
    (h : RaceReach (raceInit n v) st) :
    st.sends = st.recvs + (if st.buf.isSome then 1 else 0)
    ∧ st.sends ≤ st.recvs + 1 := by
  have h1 := race_sends_eq_recvs_plus_buffered h
  refine ⟨h1, ?_⟩
  split at h1 <;> omega

/-- Witness for the amended C2 at the initial state of a two-resolver
coordinator. -/
theorem c2_at_most_one_unread_send_witness :
    (raceInit 2 0).sends = (raceInit 2 0).recvs
        + (if (raceInit 2 0).buf.isSome then 1 else 0)
    ∧ (raceInit 2 0).sends ≤ (raceInit 2 0).recvs + 1 :=
  c2_at_most_one_unread_send 2 0 (raceInit 2 0) RaceReach.refl

/-- Claim C8 counterexample: on an empty resolver list the coordinator
returns immediately with no other effect, but its deferred `cancel` does
fire, so the context it was given is canceled rather than left
unchanged. -/
theorem c8_deferred_cancel_counterexample :
    RaceReach (raceInit 0 5) c8Final
    ∧ (raceInit 0 5).canceled = false
    ∧ c8Final.canceled = true
    ∧ c8Final.returned = true
    ∧ c8Final.sends = 0 :=
  ⟨RaceReach.tail
    (RaceReach.tail RaceReach.refl (RaceStep.exhaust (raceInit 0 5) rfl rfl))
    (RaceStep.ret _ rfl rfl rfl),
   rfl, rfl, rfl, rfl⟩

/-- Claim C8 (amended): on an empty resolver list the coordinator admits
no query task, writes nothing to the result channel and leaves the store
untouched; its only observable effect is canceling its own child context,
which happens exactly when it returns. -/
theorem c8_empty_list_only_cancels (v : Nat) (st : RaceState)
    (h : RaceReach (raceInit 0 v) st) :
    st.next = 0 ∧ st.inflight = [] ∧ st.args = [] ∧ st.sends = 0
    ∧ st.buf = none ∧ st.recvs = 0 ∧ st.failed = [] ∧ st.succeeded = []
    ∧ st.ticks = 0 ∧ st.store = [(0, v)]
    ∧ (st.canceled = true → st.returned = true)
    ∧ (st.returned = true → st.canceled = true) := by
  obtain ⟨h1, h2, h3, h4, h5, h6, h7, h8, h9, h10, h11, h12, h13, h14, h15⟩ :=
    race_empty_invariant h
  exact ⟨h2, h4, h11, h9, h8, h10, h5, h6, h7, h13, h14, h15⟩

/-- Witness for the amended C8 at the end state of the empty-list run. -/
theorem c8_empty_list_only_cancels_witness :
    c8Final.next = 0 ∧ c8Final.inflight = [] ∧ c8Final.args = []
    ∧ c8Final.sends = 0 ∧ c8Final.buf = none ∧ c8Final.recvs = 0
    ∧ c8Final.failed = [] ∧ c8Final.succeeded = [] ∧ c8Final.ticks = 0
    ∧ c8Final.store = [(0, 5)]
    ∧ (c8Final.canceled = true → c8Final.returned = true)
    ∧ (c8Final.returned = true → c8Final.canceled = true) :=
  c8_empty_list_only_cancels 5 c8Final
    (RaceReach.tail
      (RaceReach.tail RaceReach.refl (RaceStep.exhaust (raceInit 0 5) rfl rfl))
      (RaceStep.ret _ rfl rfl rfl))

/-- Claim C9 counterexample: three resolvers; the first one admitted is
the first (and only) one to succeed, yet at that moment three queries
have been admitted and are outstanding — two stagger ticks fired during
its flight — exceeding the claimed bound k+1 = 2. -/
theorem c9_escalation_bound_counterexample :
    RaceReach (raceInit 3 0) c9Final
    ∧ c9Final.succeeded = [0]
    ∧ c9Final.failed = []
    ∧ c9Final.inflight = [2, 1]
    ∧ c9Final.next = 3
    ∧ ¬ c9Final.next ≤ 1 + 1 :=
  ⟨RaceReach.tail
    (RaceReach.tail
      (RaceReach.tail
        (RaceReach.tail RaceReach.refl
          (RaceStep.admitPermit (raceInit 3 0) rfl (by decide) (by decide)))
        (RaceStep.admitTick _ rfl (by decide)))
      (RaceStep.admitTick _ rfl (by decide)))
    (RaceStep.succeedPlace _ 0 (by decide) rfl),
   rfl, rfl, rfl, rfl, by decide⟩

/-- Claim C9 (amended): every admission is justified by the seed permit,
a failure-granted permit or a stagger tick — admissions plus unspent
permits never exceed 1 + failures + ticks — and when no stagger tick has
fired and the k-th admitted resolver is the first to succeed, every other
admitted query has already failed, so exactly k queries were admitted at
that moment. -/
theorem c9_escalation_discipline (n v : Nat) (st : RaceState)
    (h : RaceReach (raceInit n v) st) :
    st.next + st.permits ≤ 1 + st.failed.length + st.ticks
    ∧ (st.ticks = 0 → ∀ i, st.succeeded = [i] →
        st.inflight = [] ∧ st.next = st.failed.length + 1) := by
  have hp := race_permit_discipline h
  have hc := race_task_counts h
  refine ⟨hp, ?_⟩
  intro ht i hsu
  rw [hsu] at hc
  simp only [List.length_cons, List.length_nil] at hc
  have hlen : st.inflight.length = 0 := by omega
  exact ⟨List.length_eq_zero.mp hlen, by omega⟩

/-- Witness for the amended C9 at the initial three-resolver state. -/
theorem c9_escalation_discipline_witness :
    (raceInit 3 0).next + (raceInit 3 0).permits
      ≤ 1 + (raceInit 3 0).failed.length + (raceInit 3 0).ticks :=
  (c9_escalation_discipline 3 0 (raceInit 3 0) RaceReach.refl).1

/-- Claim C10: every admitted query task hands the lookup capability a
fresh copy of the request: the recorded argument references are never the
shared request (reference 0) and are pairwise distinct across tasks, and
the request's value at reference 0 survives every reachable interleaving
of the racing phase unchanged, whatever mutations the lookups perform on
their copies. -/
theorem c10_lookup_gets_fresh_copy (n v : Nat) (st : RaceState)
    (h : RaceReach (raceInit n v) st) :
    st.store.lookup 0 = some v
    ∧ (∀ p ∈ st.args, 0 < p.2)
    ∧ st.args.Pairwise (fun a b => a.2 ≠ b.2) := by
  obtain ⟨h1, h2, h3, -⟩ := race_store_frame h
  exact ⟨h1, fun p hp => (h2 p hp).1, h3⟩

/-- Witness for C10 after an admitted task's lookup mutated its copy: the
request at reference 0 still reads 7. -/
theorem c10_lookup_gets_fresh_copy_witness :
    c10State.store.lookup 0 = some 7 :=
  (c10_lookup_gets_fresh_copy 1 7 c10State
    (RaceReach.tail
      (RaceReach.tail RaceReach.refl
        (RaceStep.admitPermit (raceInit 1 7) rfl (by decide) (by decide)))
      (RaceStep.mutate _ 0 1 9 (by decide)))).1

end GoChinaDNS
